import Mathlib
/-!
Verification of the thumbnail composition engine of the voice-note
thumbnail generator (`app.py`).

The engine is embedded shallowly:

* Real/float arithmetic of the source is modelled exactly over the
  rationals; Python's `int(...)` on a nonnegative value is floor, and on a
  possibly negative value it truncates toward zero (`Int.div` with a
  positive divisor).
* The canvas is a row-major list of RGB pixels; library-level pixel
  compositing (`Image.paste`, `ImageDraw.text`) is abstracted as function
  parameters, while every loop, guard and arithmetic step of the source is
  embedded literally.
* Randomness (palette choice, shuffle, coordinates) and the network fetch
  are passed in as explicit parameters; the shuffle parameter is
  constrained to be a permutation where a claim needs it.
-/

/-- An RGB color with one natural number per channel. -/
structure RGB where
  r : Nat
  g : Nat
  b : Nat
deriving DecidableEq

/-- The fixed palette set of `create_gradient_background` (start, end). -/
def palettes : List (RGB × RGB) :=
  [ (⟨240, 248, 255⟩, ⟨176, 196, 222⟩),
    (⟨255, 248, 240⟩, ⟨255, 218, 185⟩),
    (⟨248, 255, 248⟩, ⟨200, 255, 200⟩),
    (⟨255, 240, 245⟩, ⟨255, 182, 193⟩),
    (⟨248, 248, 255⟩, ⟨221, 160, 221⟩) ]

/-- Row color of the gradient: exact value of
`colors0 * (1 - y/size) + colors1 * (y/size)` truncated per channel by
Python's `int(...)`, i.e. the floor `(c0*(size-y) + c1*y) / size`. -/
def gradientRowColor (c0 c1 : RGB) (size y : Nat) : RGB :=
  { r := (c0.r * (size - y) + c1.r * y) / size,
    g := (c0.g * (size - y) + c1.g * y) / size,
    b := (c0.b * (size - y) + c1.b * y) / size }

/-- The row-major pixel list built by `create_gradient_background`: for each
row `y` in `range size` the row color is appended `size` times. -/
def gradientPixels (c0 c1 : RGB) (size : Nat) : List RGB :=
  (List.range size).flatMap (fun y => List.replicate size (gradientRowColor c0 c1 size y))

/-- `create_gradient_background` for a given palette choice: a `size × size`
row-major RGB pixel buffer. -/
def create_gradient_background (palette : RGB × RGB) (size : Nat) : List RGB :=
  gradientPixels palette.1 palette.2 size

/-- Two channel values agree within a tolerance of 1. -/
def closeOne (a b : Nat) : Prop :=
  a ≤ b + 1 ∧ b ≤ a + 1

instance (a b : Nat) : Decidable (closeOne a b) := by
  unfold closeOne
  infer_instance

/-- Outcome of one HTTP fetch of glyph art: a decodable raster of some
original dimensions, or any failure (network error, timeout, non-200
status, decode failure) — all failure modes collapse to `fail` because the
source catches them all identically. -/
inductive FetchOutcome where
  | ok (w h : Nat)
  | fail
deriving DecidableEq

/-- A glyph raster: its dimensions, and whether it is the procedural
shaded-circle fallback rather than fetched art. -/
structure EmojiImage where
  width : Nat
  height : Nat
  isFallbackCircle : Bool
deriving DecidableEq

/-- The procedural fallback of `get_emoji_image`: a `size × size`
transparent canvas with a shaded circle. -/
def fallback_circle (size : Nat) : EmojiImage :=
  { width := size, height := size, isFallbackCircle := true }

/-- Python's `ord` on an emoji string (a list of Unicode scalars): succeeds
with the codepoint only for a one-scalar string, otherwise raises (and the
source catches the exception). -/
def codepointOf (emoji : List Char) : Option Nat :=
  match emoji with
  | [c] => some c.toNat
  | _ => none

/-- `get_emoji_image`: look up the glyph's codepoint, fetch the Twemoji PNG
for it, and on success resize to exactly `size × size`; on any failure
(including a multi-scalar emoji, whose `ord` raises in both fetch branches)
return the procedural circle. The first `try` block of the source fetches
the SVG variant and does nothing with the response (`pass` on success), so
it has no observable effect and is not represented. -/
def get_emoji_image (fetchPng : Nat → FetchOutcome) (emoji : List Char)
    (size : Nat) : EmojiImage :=
  match codepointOf emoji with
  | none => fallback_circle size
  | some cp =>
    match fetchPng cp with
    | FetchOutcome.ok _ _ => { width := size, height := size, isFallbackCircle := false }
    | FetchOutcome.fail => fallback_circle size

/-- A quote record: the text and its (untrusted, unclamped) importance. -/
structure Quote where
  text : String
  importance : Int
deriving DecidableEq

/-- An emoji-weight record: the glyph as a list of Unicode scalars and its
(untrusted, unclamped) weight. -/
structure EmojiWeight where
  emoji : List Char
  weight : Int
deriving DecidableEq

/-- The flat glyph list built by `create_emoji_background`: each glyph is
repeated `max(2, weight)` times (`range` of a nonpositive count is empty,
and `max 2 w` is never nonpositive, hence `toNat` is exact). -/
def emojiPositions (emojis : List EmojiWeight) : List (List Char) :=
  emojis.flatMap (fun e => List.replicate (max 2 e.weight).toNat e.emoji)

/-- `create_emoji_background`, generic in the canvas type: build the flat
glyph list, shuffle it, and for each glyph instance in order resolve its
64px image and composite it once at the coordinates drawn for that step.
The 0.6 alpha scaling and the actual pixel blend of `Image.paste` live
inside the abstract `paste` parameter; `size` only feeds the coordinate
draw, which is abstracted by `rngXY`. -/
def create_emoji_background {α : Type} (paste : α → EmojiImage → Nat × Nat → α)
    (shuffle : List (List Char) → List (List Char)) (rngXY : Nat → Nat × Nat)
    (fetchPng : Nat → FetchOutcome) (img : α) (size : Nat)
    (emojis : List EmojiWeight) : α :=
  ((shuffle (emojiPositions emojis)).enum).foldl
    (fun c ig => paste c (get_emoji_image fetchPng ig.2 64) (rngXY ig.1)) img

/-- The caller-supplied text size multiplier as an exact rational
`num / den` (the source's float slider value, modelled exactly). -/
structure Mult where
  num : Nat
  den : Nat
deriving DecidableEq

/-- Per-quote font size of `add_text_overlay`:
`int(base_size * (importance/10) * mult)` with `base_size = size // 4`,
then `max(int(150*mult), min(·, int(size//2 * mult)))`. `Int.tdiv`
truncates toward zero exactly as Python's `int(...)` does on the exact
rational value. -/
def font_size_for (size : Nat) (m : Mult) (importance : Int) : Int :=
  let base : Nat := size / 4
  let raw : Int := Int.tdiv ((base : Int) * importance * (m.num : Int)) ((10 * m.den : Nat) : Int)
  let lower : Int := ((150 * m.num / m.den : Nat) : Int)
  let upper : Int := ((size / 2 * m.num / m.den : Nat) : Int)
  max lower (min raw upper)

/-- Splitter loop for Python's `text.split()`: scan the scalars, cutting a
word at every maximal whitespace-free run (`cur` holds the reversed scalars
of the word being built). -/
def wordsAux (cur : List Char) : List Char → List (List Char)
  | [] =>
    match cur with
    | [] => []
    | a :: t => [(a :: t).reverse]
  | c :: cs =>
    if c.isWhitespace then
      match cur with
      | [] => wordsAux [] cs
      | a :: t => (a :: t).reverse :: wordsAux [] cs
    else wordsAux (c :: cur) cs

/-- Python's `text.split()`: split on whitespace runs, dropping empty
pieces. -/
def splitWords (text : String) : List String :=
  (wordsAux [] text.toList).map (fun l => String.mk l)

/-- A single space, the separator used to join words into a line. -/
def spaceStr : String := " "

/-- Python's `' '.join(words)`. -/
def joinWords : List String → String
  | [] => ""
  | w :: ws => ws.foldl (fun acc x => acc ++ spaceStr ++ x) w

/-- The greedy accumulation loop of `wrap_text`, producing lines as word
chunks: a word is appended to the current line if the joined test line
still measures within `maxWidth`; otherwise the current line is emitted
and the word starts a new line (or, if the current line is empty, the
overlong word is emitted alone). The trailing current line is emitted at
the end. -/
def wrapChunks (width : String → Nat) (maxWidth : Nat) :
    List String → List String → List (List String)
  | current, [] =>
    match current with
    | [] => []
    | a :: t => [a :: t]
  | current, w :: ws =>
    if width (joinWords (current ++ [w])) ≤ maxWidth then
      wrapChunks width maxWidth (current ++ [w]) ws
    else
      match current with
      | [] => [w] :: wrapChunks width maxWidth [] ws
      | a :: t => (a :: t) :: wrapChunks width maxWidth [w] ws

/-- `wrap_text`: the emitted lines are the word chunks joined with single
spaces. `width` is the pixel measure of a string in the active font, the
source's `textbbox` width. -/
def wrap_text (width : String → Nat) (maxWidth : Nat) (text : String) : List String :=
  (wrapChunks width maxWidth [] (splitWords text)).map joinWords

/-- The ordering of `quotes.sort(key=importance, reverse=True)`:
descending importance. -/
def quoteGE (a b : Quote) : Prop :=
  b.importance ≤ a.importance

instance : DecidableRel quoteGE :=
  fun a b => inferInstanceAs (Decidable (b.importance ≤ a.importance))

instance : IsTotal Quote quoteGE :=
  ⟨fun a b => le_total b.importance a.importance⟩

instance : IsTrans Quote quoteGE :=
  ⟨fun _ _ _ hab hbc => le_trans hbc hab⟩

/-- The sorted quote list that `add_text_overlay` leaves in the caller's
list object after its in-place `quotes.sort(...)`. Python's sort is
stable; a stable sort's output is uniquely determined by the key order, so
stable insertion sort is an exact model of the observable result. -/
def sortQuotes (quotes : List Quote) : List Quote :=
  List.insertionSort quoteGE quotes

/-- One quote actually rendered by the layout loop: the quote, its wrapped
lines, and the cursor position where its block starts. -/
structure RenderedQuote where
  quote : Quote
  lines : List String
  startY : Int
deriving DecidableEq

/-- Font size used for a quote. -/
def quoteFont (size : Nat) (m : Mult) (q : Quote) : Int :=
  font_size_for size m q.importance

/-- Wrapped lines of a quote at its font size, width limit `size - 120`. -/
def quoteLines (widthOf : Int → String → Nat) (size : Nat) (m : Mult)
    (q : Quote) : List String :=
  wrap_text (widthOf (quoteFont size m q)) (size - 120) q.text

/-- Measured heights of a quote's lines (`textbbox` height per line). -/
def quoteLineHeights (widthOf heightOf : Int → String → Nat) (size : Nat)
    (m : Mult) (q : Quote) : List Nat :=
  (quoteLines widthOf size m q).map (heightOf (quoteFont size m q))

/-- Inter-line spacing of a quote: `font_size // 4` (the font size is
always nonnegative, its lower clamp being `int(150*mult)`). -/
def quoteSpacing (size : Nat) (m : Mult) (q : Quote) : Nat :=
  (quoteFont size m q).toNat / 4

/-- `total_height` of a quote's block: sum of line heights plus spacing
times `len(lines) - 1` (computed in Int, as in the source, where an empty
line list gives `-spacing`). -/
def quoteTotalHeight (widthOf heightOf : Int → String → Nat) (size : Nat)
    (m : Mult) (q : Quote) : Int :=
  ((quoteLineHeights widthOf heightOf size m q).sum : Int)
    + (quoteSpacing size m q : Int)
      * (((quoteLines widthOf size m q).length : Int) - 1)

/-- One iteration of the quote loop of `add_text_overlay`: if the cursor
plus the block's `total_height` stays strictly below `size - 100`, the
quote is rendered (the cursor advances by each line's height plus spacing,
for every line, then by the fixed 40px gap); otherwise the quote is
skipped and the state is unchanged — the loop continues with later
quotes. -/
def layoutStep (widthOf heightOf : Int → String → Nat) (size : Nat) (m : Mult)
    (st : Int × List RenderedQuote) (q : Quote) : Int × List RenderedQuote :=
  if st.1 + quoteTotalHeight widthOf heightOf size m q < (size : Int) - 100 then
    (st.1 + ((quoteLineHeights widthOf heightOf size m q).sum : Int)
        + (quoteSpacing size m q : Int) * ((quoteLines widthOf size m q).length : Int)
        + 40,
      st.2 ++ [⟨q, quoteLines widthOf size m q, st.1⟩])
  else st

/-- The layout decisions of `add_text_overlay`: fold the per-quote step
over the importance-sorted quotes with the cursor starting at `size // 12`;
returns the final cursor and the rendered quotes in order. -/
def layoutQuotes (widthOf heightOf : Int → String → Nat) (size : Nat)
    (m : Mult) (quotes : List Quote) : Int × List RenderedQuote :=
  (sortQuotes quotes).foldl (layoutStep widthOf heightOf size m)
    (((size / 12 : Nat) : Int), [])

/-- Fill color of one text draw call. -/
inductive TextColor where
  | white
  | black
deriving DecidableEq

/-- The outline offsets: every `(dx, dy)` in `[-4,4] × [-4,4]` except
`(0,0)`. -/
def outline_offsets : List (Int × Int) :=
  ((List.range 9).flatMap (fun dx => (List.range 9).map (fun dy =>
    (((dx : Int) - 4), ((dy : Int) - 4))))).filter
    (fun p => decide (p ≠ (0, 0)))

/-- Draw one horizontally centered line: the white outline at every offset,
then the black text on top. `x = (size - line_width) // 2` uses Python's
floor division. -/
def drawOneLine {α : Type} (drawText : α → Int × Int → String → Int → TextColor → α)
    (widthOf : Int → String → Nat) (size : Nat) (fs : Int) (c : α)
    (line : String) (y : Int) : α :=
  let x : Int := Int.fdiv ((size : Int) - (widthOf fs line : Int)) 2
  let withOutline := outline_offsets.foldl
    (fun cc off => drawText cc (x + off.1, y + off.2) line fs TextColor.white) c
  drawText withOutline (x, y) line fs TextColor.black

/-- Draw a rendered quote's block: each line at the running `current_y`,
which then advances by that line's height plus the inter-line spacing
(after every line, including the last). -/
def drawRendered {α : Type} (drawText : α → Int × Int → String → Int → TextColor → α)
    (widthOf heightOf : Int → String → Nat) (size : Nat) (m : Mult)
    (c : α) (rq : RenderedQuote) : α :=
  let fs := quoteFont size m rq.quote
  let spacing := quoteSpacing size m rq.quote
  (rq.lines.foldl (fun (st : α × Int) line =>
      (drawOneLine drawText widthOf size fs st.1 line st.2,
        st.2 + (heightOf fs line : Int) + (spacing : Int)))
    (c, rq.startY)).1

/-- `add_text_overlay`: sorts the caller's quote list in place (returned as
the second component: the state of the caller's list object after the
call), lays out the sorted quotes, and draws every rendered block onto the
canvas. -/
def add_text_overlay {α : Type} (drawText : α → Int × Int → String → Int → TextColor → α)
    (widthOf heightOf : Int → String → Nat) (img : α) (size : Nat)
    (quotes : List Quote) (m : Mult) : α × List Quote :=
  ((layoutQuotes widthOf heightOf size m quotes).2.foldl
      (fun c rq => drawRendered drawText widthOf heightOf size m c rq) img,
    sortQuotes quotes)

/-- `create_thumbnail`: gradient background at the fixed size 1024, emoji
collage on top, then the text overlay; the composited canvas is
returned. -/
def create_thumbnail (paste : List RGB → EmojiImage → Nat × Nat → List RGB)
    (drawText : List RGB → Int × Int → String → Int → TextColor → List RGB)
    (shuffle : List (List Char) → List (List Char)) (rngXY : Nat → Nat × Nat)
    (fetchPng : Nat → FetchOutcome) (widthOf heightOf : Int → String → Nat)
    (palette : RGB × RGB) (quotes : List Quote) (emojis : List EmojiWeight)
    (m : Mult) : List RGB :=
  let size := 1024
  let img0 := create_gradient_background palette size
  let img1 := create_emoji_background paste shuffle rngXY fetchPng img0 size emojis
  (add_text_overlay drawText widthOf heightOf img1 size quotes m).1

/-- A width measure that makes every test line fit: wrapping yields one
line per quote. Used for concrete layout scenarios. -/
def zeroWidth : Int → String → Nat := fun _ _ => 0

/-- A constant line-height measure. -/
def height10 : Int → String → Nat := fun _ _ => 10

/-- A line-height measure that makes exactly the line consisting of the
word under scrutiny very tall. -/
def skipHeight : Int → String → Nat := fun _ s => if s = "skipme" then 900 else 10

/-- The multiplier 1.0. -/
def mult1 : Mult := ⟨1, 1⟩

/-- A concrete quote list on which the middle quote overflows while the
last, lower-importance one still fits. -/
def cexQuotes : List Quote := [⟨"a", 10⟩, ⟨"skipme", 9⟩, ⟨"c", 8⟩]

-- Theorems for the claims and their supporting lemmas follow.

/-- Indexing a concatenation of equal-length blocks: position `y*size + x`
falls in block `y`. -/
theorem bind_replicate_getD {α : Type} (f : Nat → α) (d : α) (size : Nat) :
    ∀ (l : List Nat) (y x : Nat), y < l.length → x < size →
      ((l.flatMap (fun i => List.replicate size (f i))).getD (y * size + x) d
        = f (l.getD y 0)) := by
  intro l
  induction l with
  | nil => intro y x hy _; simp at hy
  | cons a t ih =>
    intro y x hy hx
    cases y with
    | zero =>
      simp only [List.flatMap_cons, Nat.zero_mul, Nat.zero_add]
      rw [List.getD_eq_getElem?_getD, List.getElem?_append_left (by simpa using hx)]
      simp [hx.le, List.getElem?_replicate, hx]
    | succ y' =>
      simp only [List.flatMap_cons]
      rw [List.getD_eq_getElem?_getD, List.getElem?_append_right (by
        simp only [List.length_replicate]
        calc size ≤ y' * size + size := Nat.le_add_left _ _
        _ = Nat.succ y' * size := (Nat.succ_mul y' size).symm
        _ ≤ Nat.succ y' * size + x := Nat.le_add_right _ _)]
      have harith : Nat.succ y' * size + x - size = y' * size + x := by
        rw [Nat.succ_mul]
        omega
      rw [List.length_replicate, harith, ← List.getD_eq_getElem?_getD]
      have hy' : y' < t.length := by simpa using hy
      simpa using ih y' x hy' hx

/-- The gradient buffer has exactly `size * size` pixels. -/
theorem gradientPixels_length (c0 c1 : RGB) (size : Nat) :
    (gradientPixels c0 c1 size).length = size * size := by
  unfold gradientPixels
  rw [List.length_flatMap]
  simp [Function.comp_def, List.map_const', List.sum_replicate]

/-- Pixel `(y, x)` of the gradient buffer is the row-`y` color. -/
theorem gradientPixels_getD (c0 c1 : RGB) (size y x : Nat) (d : RGB)
    (hy : y < size) (hx : x < size) :
    (gradientPixels c0 c1 size).getD (y * size + x) d
      = gradientRowColor c0 c1 size y := by
  unfold gradientPixels
  rw [bind_replicate_getD _ d size (List.range size) y x (by simpa using hy) hx]
  congr 1
  simp [List.getD_eq_getElem?_getD, hy]

/-- Value of a gradient channel on the last row: `b + (a-b)/size`, within 1
of the end channel whenever the channel gap is at most `size`. -/
theorem interp_last_channel (a b size : Nat) (hs : 0 < size) (hba : b ≤ a)
    (hd : a - b ≤ size) : closeOne ((a + b * (size - 1)) / size) b := by
  have key : a + b * (size - 1) = size * b + (a - b) := by
    obtain ⟨k, rfl⟩ : ∃ k, size = k + 1 := ⟨size - 1, by omega⟩
    have h2 : (k + 1) * b = k * b + b := Nat.succ_mul k b
    have h3 : b * (k + 1 - 1) = k * b := by
      simp [Nat.mul_comm]
    rw [h3, h2]
    set m := k * b with hm
    omega
  rw [key, Nat.mul_add_div hs]
  have hq : (a - b) / size ≤ 1 := by
    calc (a - b) / size ≤ size / size := Nat.div_le_div_right hd
    _ = 1 := Nat.div_self hs
  exact ⟨Nat.add_le_add_left hq b,
    le_trans (Nat.le_add_right b ((a - b) / size)) (Nat.le_succ _)⟩

/-- On the last row every channel of the gradient is within 1 of the end
color, provided each channel gap is at most `size`. -/
theorem last_row_close (c0 c1 : RGB) (size : Nat) (hs : 0 < size)
    (hr : c1.r ≤ c0.r ∧ c0.r - c1.r ≤ size)
    (hg : c1.g ≤ c0.g ∧ c0.g - c1.g ≤ size)
    (hb : c1.b ≤ c0.b ∧ c0.b - c1.b ≤ size) :
    closeOne (gradientRowColor c0 c1 size (size - 1)).r c1.r ∧
    closeOne (gradientRowColor c0 c1 size (size - 1)).g c1.g ∧
    closeOne (gradientRowColor c0 c1 size (size - 1)).b c1.b := by
  unfold gradientRowColor
  have h1 : size - (size - 1) = 1 := by omega
  rw [h1]
  simp only [Nat.mul_one]
  exact ⟨interp_last_channel _ _ _ hs hr.1 hr.2,
    interp_last_channel _ _ _ hs hg.1 hg.2,
    interp_last_channel _ _ _ hs hb.1 hb.2⟩

/-- Row 0 of the gradient is exactly the start color. -/
theorem gradientRowColor_zero (c0 c1 : RGB) (size : Nat) (hs : 0 < size) :
    gradientRowColor c0 c1 size 0 = c0 := by
  obtain ⟨r0, g0, b0⟩ := c0
  simp [gradientRowColor, Nat.mul_div_cancel _ hs]

/-- C5: for every palette in the fixed set and size at least 88, the
background builder returns a `size*size` buffer in which all pixels of a row
are identical and equal to the truncated linear interpolation for that row,
row 0 equals the start color exactly, and row `size-1` is within a
per-channel tolerance of 1 of the end color. (Amended from the claim: the
end-row tolerance requires `size` to be at least the largest per-channel
palette gap, 88; the claim as stated over every size fails, see
`C5_counterexample`.) -/
theorem C5_gradient_rows (c0 c1 : RGB) (size y x1 x2 : Nat) (d : RGB)
    (hpal : (c0, c1) ∈ palettes) (hsize : 88 ≤ size)
    (hy : y < size) (hx1 : x1 < size) (hx2 : x2 < size) :
    (gradientPixels c0 c1 size).length = size * size ∧
    (gradientPixels c0 c1 size).getD (y * size + x1) d
      = (gradientPixels c0 c1 size).getD (y * size + x2) d ∧
    (gradientPixels c0 c1 size).getD (y * size + x1) d
      = gradientRowColor c0 c1 size y ∧
    (gradientPixels c0 c1 size).getD (0 * size + x1) d = c0 ∧
    (closeOne ((gradientPixels c0 c1 size).getD ((size - 1) * size + x1) d).r c1.r ∧
     closeOne ((gradientPixels c0 c1 size).getD ((size - 1) * size + x1) d).g c1.g ∧
     closeOne ((gradientPixels c0 c1 size).getD ((size - 1) * size + x1) d).b c1.b) := by
  have hs : 0 < size := by omega
  refine ⟨gradientPixels_length c0 c1 size, ?_, ?_, ?_, ?_⟩
  · rw [gradientPixels_getD c0 c1 size y x1 d hy hx1,
      gradientPixels_getD c0 c1 size y x2 d hy hx2]
  · rw [gradientPixels_getD c0 c1 size y x1 d hy hx1]
  · rw [gradientPixels_getD c0 c1 size 0 x1 d hs hx1]
    exact gradientRowColor_zero c0 c1 size hs
  · rw [gradientPixels_getD c0 c1 size (size - 1) x1 d (by omega) hx1]
    simp only [palettes, List.mem_cons, List.not_mem_nil, or_false,
      Prod.mk.injEq] at hpal
    rcases hpal with ⟨rfl, rfl⟩ | ⟨rfl, rfl⟩ | ⟨rfl, rfl⟩ | ⟨rfl, rfl⟩ | ⟨rfl, rfl⟩ <;>
      exact last_row_close _ _ size hs
        ⟨by decide, le_trans (by decide) hsize⟩
        ⟨by decide, le_trans (by decide) hsize⟩
        ⟨by decide, le_trans (by decide) hsize⟩

/-- C5 witness: at size 1024 with the first palette, pixel `(0, 3)` of the
gradient equals the start color exactly. -/
theorem C5_gradient_rows_witness :
    (gradientPixels ⟨240, 248, 255⟩ ⟨176, 196, 222⟩ 1024).getD
      (0 * 1024 + 3) ⟨0, 0, 0⟩ = ⟨240, 248, 255⟩ :=
  (C5_gradient_rows ⟨240, 248, 255⟩ ⟨176, 196, 222⟩ 1024 5 3 7 ⟨0, 0, 0⟩
    (by decide) (by norm_num) (by norm_num) (by norm_num) (by norm_num)).2.2.2.1

/-- C5 counterexample: at size 1 with the first palette (a palette of the
fixed set), the last row is NOT within tolerance 1 of the end color, so the
claim quantified over every size is false. -/
theorem C5_counterexample :
    ((⟨240, 248, 255⟩, ⟨176, 196, 222⟩) : RGB × RGB) ∈ palettes ∧
    ¬ closeOne
      ((gradientPixels ⟨240, 248, 255⟩ ⟨176, 196, 222⟩ 1).getD
        ((1 - 1) * 1 + 0) ⟨0, 0, 0⟩).r 176 := by
  constructor
  · decide
  · decide

/-- C6: for every glyph, size and fetch outcome, `get_emoji_image` returns
an image of exactly the requested `size × size` dimensions (it is a total
function, so it never fails), and whenever the fetch does not succeed it
returns the procedural circle fallback. -/
theorem C6_resolve_dims (fetchPng : Nat → FetchOutcome) (emoji : List Char)
    (size : Nat) :
    (get_emoji_image fetchPng emoji size).width = size ∧
    (get_emoji_image fetchPng emoji size).height = size ∧
    ((∀ cp, codepointOf emoji = some cp → fetchPng cp = FetchOutcome.fail) →
      (get_emoji_image fetchPng emoji size).isFallbackCircle = true) := by
  cases hcp : codepointOf emoji with
  | none => simp [get_emoji_image, hcp, fallback_circle]
  | some cp =>
    refine ⟨?_, ?_, ?_⟩
    · cases hf : fetchPng cp <;> simp [get_emoji_image, hcp, hf, fallback_circle]
    · cases hf : fetchPng cp <;> simp [get_emoji_image, hcp, hf, fallback_circle]
    · intro hfail
      simp [get_emoji_image, hcp, hfail cp rfl, fallback_circle]

/-- C6 witness: a concrete failing fetch yields the 64×64 circle. -/
theorem C6_resolve_dims_witness :
    (get_emoji_image (fun _ => FetchOutcome.fail) ['a'] 64).width = 64 ∧
    (get_emoji_image (fun _ => FetchOutcome.fail) ['a'] 64).height = 64 ∧
    ((∀ cp, codepointOf ['a'] = some cp →
        (fun _ => FetchOutcome.fail) cp = FetchOutcome.fail) →
      (get_emoji_image (fun _ => FetchOutcome.fail) ['a'] 64).isFallbackCircle = true) :=
  C6_resolve_dims (fun _ => FetchOutcome.fail) ['a'] 64

/-- C10: for every emoji string of more than one Unicode scalar, glyph
resolution returns the procedural circle of the requested size regardless
of the fetch behavior (the single-codepoint conversion fails, so no usable
remote lookup is attempted). -/
theorem C10_multi_scalar_fallback (fetchPng : Nat → FetchOutcome)
    (emoji : List Char) (size : Nat) (h : 1 < emoji.length) :
    get_emoji_image fetchPng emoji size = fallback_circle size := by
  unfold get_emoji_image
  match emoji, h with
  | c1 :: c2 :: rest, _ => rfl

/-- C10 witness: a two-scalar emoji with an always-succeeding fetch still
yields the circle fallback. -/
theorem C10_multi_scalar_fallback_witness :
    1 < (['a', 'b'] : List Char).length ∧
    get_emoji_image (fun _ => FetchOutcome.ok 72 72) ['a', 'b'] 64
      = fallback_circle 64 :=
  ⟨by decide, C10_multi_scalar_fallback (fun _ => FetchOutcome.ok 72 72)
    ['a', 'b'] 64 (by decide)⟩

/-- Concatenating the chunks emitted by the greedy wrap loop gives back the
pending line followed by the remaining words. -/
theorem wrapChunks_flatten (width : String → Nat) (mW : Nat) :
    ∀ (ws current : List String),
      (wrapChunks width mW current ws).flatten = current ++ ws := by
  intro ws
  induction ws with
  | nil =>
    intro current
    cases current with
    | nil => simp [wrapChunks]
    | cons a t => simp [wrapChunks]
  | cons w ws ih =>
    intro current
    cases current with
    | nil =>
      by_cases h : width (joinWords ([] ++ [w])) ≤ mW
      · rw [wrapChunks, if_pos h, ih ([] ++ [w])]
        simp
      · rw [wrapChunks, if_neg h]
        simp [ih []]
    | cons a t =>
      by_cases h : width (joinWords (a :: t ++ [w])) ≤ mW
      · rw [wrapChunks, if_pos h, ih (a :: t ++ [w])]
        simp
      · rw [wrapChunks, if_neg h]
        simp [ih [w]]

/-- Every chunk emitted by the greedy wrap loop measures within the limit
or is a single word, provided the pending line already does. -/
theorem wrapChunks_width_inv (width : String → Nat) (mW : Nat) :
    ∀ (ws current : List String),
      (current = [] ∨ width (joinWords current) ≤ mW ∨ current.length = 1) →
      ∀ chunk ∈ wrapChunks width mW current ws,
        width (joinWords chunk) ≤ mW ∨ chunk.length = 1 := by
  intro ws
  induction ws with
  | nil =>
    intro current hcur chunk hchunk
    cases current with
    | nil => simp [wrapChunks] at hchunk
    | cons a t =>
      simp only [wrapChunks, List.mem_singleton] at hchunk
      subst hchunk
      rcases hcur with h | h | h
      · exact absurd h (by simp)
      · exact Or.inl h
      · exact Or.inr h
  | cons w ws ih =>
    intro current hcur chunk hchunk
    cases current with
    | nil =>
      by_cases h : width (joinWords ([] ++ [w])) ≤ mW
      · rw [wrapChunks, if_pos h] at hchunk
        exact ih ([] ++ [w]) (Or.inr (Or.inl h)) chunk hchunk
      · rw [wrapChunks, if_neg h] at hchunk
        rcases List.mem_cons.mp hchunk with rfl | hmem
        · exact Or.inr rfl
        · exact ih [] (Or.inl rfl) chunk hmem
    | cons a t =>
      by_cases h : width (joinWords (a :: t ++ [w])) ≤ mW
      · rw [wrapChunks, if_pos h] at hchunk
        exact ih (a :: t ++ [w]) (Or.inr (Or.inl h)) chunk hchunk
      · rw [wrapChunks, if_neg h] at hchunk
        rcases List.mem_cons.mp hchunk with rfl | hmem
        · rcases hcur with h1 | h1 | h1
          · exact absurd h1 (by simp)
          · exact Or.inl h1
          · exact Or.inr h1
        · exact ih [w] (Or.inr (Or.inr rfl)) chunk hmem

/-- C4: for every width measure, positive width limit and non-empty text,
the wrapped chunks concatenate back to the original word sequence (no word
dropped, duplicated or reordered; the emitted lines are exactly these
chunks joined with single spaces), and every chunk measures within the
limit unless it is a single word. -/
theorem C4_wrap_roundtrip (width : String → Nat) (maxWidth : Nat)
    (text : String) (hpos : 0 < maxWidth) (htext : text ≠ "") :
    (wrapChunks width maxWidth [] (splitWords text)).flatten = splitWords text ∧
    wrap_text width maxWidth text
      = (wrapChunks width maxWidth [] (splitWords text)).map joinWords ∧
    ∀ chunk ∈ wrapChunks width maxWidth [] (splitWords text),
      width (joinWords chunk) ≤ maxWidth ∨ chunk.length = 1 :=
  ⟨by simpa using wrapChunks_flatten width maxWidth (splitWords text) [],
    rfl,
    wrapChunks_width_inv width maxWidth (splitWords text) [] (Or.inl rfl)⟩

/-- C4 witness: wrapping a concrete text at limit 5 measured by string
length round-trips to its word sequence. -/
theorem C4_wrap_roundtrip_witness :
    (wrapChunks (fun s => s.length) 5 []
        (splitWords ("aa bb cc ddddddd ee"))).flatten
      = splitWords ("aa bb cc ddddddd ee") :=
  (C4_wrap_roundtrip (fun s => s.length) 5 ("aa bb cc ddddddd ee")
    (by decide) (by decide)).1

/-- Counting fold: adding one per element yields the length. -/
theorem foldl_count {β : Type} :
    ∀ (l : List β) (n : Nat), l.foldl (fun c _ => c + 1) n = n + l.length := by
  intro l
  induction l with
  | nil => intro n; simp
  | cons a t ih =>
    intro n
    rw [List.foldl_cons, ih (n + 1)]
    simp
    omega

/-- The flat glyph list has `sum(max(2, weight))` entries. -/
theorem emojiPositions_length (emojis : List EmojiWeight) :
    (emojiPositions emojis).length
      = (emojis.map (fun e => (max 2 e.weight).toNat)).sum := by
  unfold emojiPositions
  rw [List.length_flatMap]
  congr 1
  simp [Function.comp_def]

/-- C3: for every emoji-weight list and every permutation-shuffle, the
collage pastes exactly `sum(max(2, weight))` glyph instances: counting one
per composite operation (canvas instantiated as a counter) yields that
sum. -/
theorem C3_collage_count (shuffle : List (List Char) → List (List Char))
    (rngXY : Nat → Nat × Nat) (fetchPng : Nat → FetchOutcome)
    (emojis : List EmojiWeight)
    (hshuffle : ∀ l, List.Perm (shuffle l) l) :
    create_emoji_background (fun (n : Nat) _ _ => n + 1) shuffle rngXY fetchPng
      0 1024 emojis
      = (emojis.map (fun e => (max 2 e.weight).toNat)).sum := by
  unfold create_emoji_background
  rw [show ((shuffle (emojiPositions emojis)).enum).foldl
        (fun c ig => (fun (n : Nat) _ _ => n + 1) c
          (get_emoji_image fetchPng ig.2 64) (rngXY ig.1)) 0
      = ((shuffle (emojiPositions emojis)).enum).foldl (fun c _ => c + 1) 0
    from rfl]
  rw [foldl_count, List.enum_length,
    (hshuffle (emojiPositions emojis)).length_eq, Nat.zero_add]
  exact emojiPositions_length emojis

/-- C3 witness: a concrete list with weights 5 and 1 yields 5 + 2 = 7
composite operations. -/
theorem C3_collage_count_witness :
    create_emoji_background (fun (n : Nat) _ _ => n + 1) id (fun _ => (0, 0))
      (fun _ => FetchOutcome.fail) 0 1024 [⟨['a'], 5⟩, ⟨['b'], 1⟩]
      = ([(⟨['a'], 5⟩ : EmojiWeight), ⟨['b'], 1⟩].map
          (fun e => (max 2 e.weight).toNat)).sum :=
  C3_collage_count id (fun _ => (0, 0)) (fun _ => FetchOutcome.fail)
    [⟨['a'], 5⟩, ⟨['b'], 1⟩] (fun l => List.Perm.refl l)

/-- C2 counterexample: an emoji of weight 50 is placed 50 times, not 10,
and importance 20 yields a different font size than importance 10 — the
pipeline does not clamp out-of-range values into [1,10]. -/
theorem C2_counterexample :
    (emojiPositions [⟨['a'], 50⟩]).length = 50 ∧ (50 : Nat) ≠ 10 ∧
    font_size_for 1024 mult1 20 ≠ font_size_for 1024 mult1 10 := by
  refine ⟨by decide, by decide, by decide⟩

/-- C2 (amended): out-of-range weights and importance values are tolerated
but NOT clamped into [1,10]: an emoji of weight `w` contributes
`max(2, w)` instances (unbounded above), and a quote's importance enters
the font-size formula raw — only the resulting font size is clamped, to
`[int(150*mult), int(size//2 * mult)]`. -/
theorem C2_no_clamp_amended (g : List Char) (w : Int) (size : Nat) (m : Mult)
    (imp : Int) :
    (emojiPositions [⟨g, w⟩]).length = (max 2 w).toNat ∧
    ((150 * m.num / m.den : Nat) : Int) ≤ font_size_for size m imp ∧
    font_size_for size m imp
      ≤ max ((150 * m.num / m.den : Nat) : Int)
          ((size / 2 * m.num / m.den : Nat) : Int) := by
  refine ⟨?_, ?_, ?_⟩
  · simp [emojiPositions]
  · exact le_max_left _ _
  · exact max_le_max (le_refl _) (min_le_right _ _)

/-- The rendered quotes accumulated by the layout fold extend the already
accumulated ones by an in-order subsequence of the remaining quotes. -/
theorem layout_rendered_sublist (widthOf heightOf : Int → String → Nat)
    (size : Nat) (m : Mult) :
    ∀ (l : List Quote) (y : Int) (r : List RenderedQuote),
      ((l.foldl (layoutStep widthOf heightOf size m) (y, r)).2.map
          (fun rq => rq.quote)).Sublist
        ((r.map (fun rq => rq.quote)) ++ l) := by
  intro l
  induction l with
  | nil =>
    intro y r
    simp
  | cons q l ih =>
    intro y r
    rw [List.foldl_cons]
    by_cases h : y + quoteTotalHeight widthOf heightOf size m q < (size : Int) - 100
    · have hstep : layoutStep widthOf heightOf size m (y, r) q
          = (y + ((quoteLineHeights widthOf heightOf size m q).sum : Int)
              + (quoteSpacing size m q : Int)
                * ((quoteLines widthOf size m q).length : Int) + 40,
            r ++ [⟨q, quoteLines widthOf size m q, y⟩]) := by
        unfold layoutStep
        rw [if_pos h]
      rw [hstep]
      have h2 := ih (y + ((quoteLineHeights widthOf heightOf size m q).sum : Int)
          + (quoteSpacing size m q : Int)
            * ((quoteLines widthOf size m q).length : Int) + 40)
        (r ++ [⟨q, quoteLines widthOf size m q, y⟩])
      simpa [List.map_append, List.append_assoc] using h2
    · have hstep : layoutStep widthOf heightOf size m (y, r) q = (y, r) := by
        unfold layoutStep
        rw [if_neg h]
      rw [hstep]
      exact (ih y r).trans
        (List.Sublist.append_left (List.sublist_cons_self q l)
          (r.map (fun rq => rq.quote)))

/-- Every rendered quote accumulated by the layout fold carries exactly its
wrapped line list. -/
theorem layout_rendered_lines (widthOf heightOf : Int → String → Nat)
    (size : Nat) (m : Mult) :
    ∀ (l : List Quote) (y : Int) (r : List RenderedQuote),
      (∀ rq ∈ r, rq.lines = quoteLines widthOf size m rq.quote) →
      ∀ rq ∈ (l.foldl (layoutStep widthOf heightOf size m) (y, r)).2,
        rq.lines = quoteLines widthOf size m rq.quote := by
  intro l
  induction l with
  | nil =>
    intro y r hr
    simpa using hr
  | cons q l ih =>
    intro y r hr
    rw [List.foldl_cons]
    by_cases h : y + quoteTotalHeight widthOf heightOf size m q < (size : Int) - 100
    · have hstep : layoutStep widthOf heightOf size m (y, r) q
          = (y + ((quoteLineHeights widthOf heightOf size m q).sum : Int)
              + (quoteSpacing size m q : Int)
                * ((quoteLines widthOf size m q).length : Int) + 40,
            r ++ [⟨q, quoteLines widthOf size m q, y⟩]) := by
        unfold layoutStep
        rw [if_pos h]
      rw [hstep]
      refine ih _ (r ++ [⟨q, quoteLines widthOf size m q, y⟩]) ?_
      intro rq hrq
      rcases List.mem_append.mp hrq with hmem | hmem
      · exact hr rq hmem
      · rw [List.mem_singleton.mp hmem]
    · have hstep : layoutStep widthOf heightOf size m (y, r) q = (y, r) := by
        unfold layoutStep
        rw [if_neg h]
      rw [hstep]
      exact ih y r hr

/-- C1 (amended): the text layout engine skips any quote whose block would
overflow `size - 100` but CONTINUES with subsequent lower-importance
quotes, so the rendered quotes form an in-order subsequence — not
necessarily a strict prefix — of the importance-descending order; no quote
is partially rendered: every rendered quote carries its complete wrapped
line list. The strict-prefix claim is refuted by `C1_counterexample`. -/
theorem C1_skip_policy_amended (widthOf heightOf : Int → String → Nat)
    (size : Nat) (m : Mult) (quotes : List Quote) :
    ((layoutQuotes widthOf heightOf size m quotes).2.map
        (fun rq => rq.quote)).Sublist (sortQuotes quotes) ∧
    ∀ rq ∈ (layoutQuotes widthOf heightOf size m quotes).2,
      rq.lines = quoteLines widthOf size m rq.quote := by
  constructor
  · have h := layout_rendered_sublist widthOf heightOf size m
      (sortQuotes quotes) (((size / 12 : Nat) : Int)) []
    simpa [layoutQuotes] using h
  · exact layout_rendered_lines widthOf heightOf size m
      (sortQuotes quotes) (((size / 12 : Nat) : Int)) [] (by simp)

/-- C1 witness: on a concrete quote list the rendered quotes are a
subsequence of the sorted order. -/
theorem C1_skip_policy_amended_witness :
    ((layoutQuotes zeroWidth skipHeight 1024 mult1 cexQuotes).2.map
        (fun rq => rq.quote)).Sublist (sortQuotes cexQuotes) :=
  (C1_skip_policy_amended zeroWidth skipHeight 1024 mult1 cexQuotes).1

/-- C1 counterexample: with a metrics function under which the middle
quote's block is too tall, the engine renders the first and THIRD quotes —
the rendered list is not a prefix of the importance-descending order (a
prefix would equal `take` of its length). -/
theorem C1_counterexample :
    ((layoutQuotes zeroWidth skipHeight 1024 mult1 cexQuotes).2.map
        (fun rq => rq.quote))
      ≠ (sortQuotes cexQuotes).take
          ((layoutQuotes zeroWidth skipHeight 1024 mult1 cexQuotes).2.length) := by
  decide

/-- C8 (amended): the layout cursor starts at `size // 12`, and after a
rendered quote the cursor for the next quote equals the previous cursor
plus the block's `total_height` PLUS one extra inter-line spacing
(`font_size // 4` is added after every line, including the last) plus the
fixed 40px gap. The claim's "exactly block height plus 40" is refuted by
`C8_counterexample`. -/
theorem C8_cursor_advance_amended (widthOf heightOf : Int → String → Nat)
    (size : Nat) (m : Mult) (q : Quote) (y : Int) (r : List RenderedQuote)
    (hfit : y + quoteTotalHeight widthOf heightOf size m q < (size : Int) - 100) :
    (layoutStep widthOf heightOf size m (y, r) q).1
      = y + quoteTotalHeight widthOf heightOf size m q
        + (quoteSpacing size m q : Int) + 40 ∧
    (layoutQuotes widthOf heightOf size m []).1 = ((size / 12 : Nat) : Int) := by
  constructor
  · have hstep : (layoutStep widthOf heightOf size m (y, r) q).1
        = y + ((quoteLineHeights widthOf heightOf size m q).sum : Int)
          + (quoteSpacing size m q : Int)
            * ((quoteLines widthOf size m q).length : Int) + 40 := by
      unfold layoutStep
      rw [if_pos hfit]
    rw [hstep]
    unfold quoteTotalHeight
    ring
  · rfl

/-- C8 witness: for a one-line quote of height 10 at font size 256 the
rendered advance is total height 10 plus spacing 64 plus the 40px gap. -/
theorem C8_cursor_advance_amended_witness :
    (layoutStep zeroWidth height10 1024 mult1 (85, []) ⟨"a", 10⟩).1
      = 85 + quoteTotalHeight zeroWidth height10 1024 mult1 ⟨"a", 10⟩
        + (quoteSpacing 1024 mult1 ⟨"a", 10⟩ : Int) + 40 :=
  (C8_cursor_advance_amended zeroWidth height10 1024 mult1 ⟨"a", 10⟩ 85 []
    (by decide)).1

/-- C8 counterexample: a single rendered quote with block height 10 leaves
the cursor at 199, not at `85 + 10 + 40 = 135` as the claim (cursor plus
exactly the block height plus 40) would demand. -/
theorem C8_counterexample :
    quoteTotalHeight zeroWidth height10 1024 mult1 ⟨"a", 10⟩ = 10 ∧
    (layoutQuotes zeroWidth height10 1024 mult1 [⟨"a", 10⟩]).1 = 199 ∧
    (199 : Int) ≠ ((1024 / 12 : Nat) : Int) + 10 + 40 := by
  refine ⟨by decide, by decide, by decide⟩

/-- C9 counterexample: `add_text_overlay` sorts the caller's quote list in
place; for a list in ascending importance order the list object afterwards
is NOT the original list. -/
theorem C9_counterexample :
    (add_text_overlay (fun (c : Unit) _ _ _ _ => c) zeroWidth height10 ()
        1024 [⟨"x", 1⟩, ⟨"y", 2⟩] mult1).2
      ≠ [⟨"x", 1⟩, ⟨"y", 2⟩] := by
  decide

/-- C9 (amended): `add_text_overlay` draws only on the canvas but sorts
the caller's quote list in place: after the call the list object holds the
same Quote records (a permutation, each record unmodified) in descending
importance order — it is not left in its original order, see
`C9_counterexample`. -/
theorem C9_quotes_mutation_amended {α : Type}
    (drawText : α → Int × Int → String → Int → TextColor → α)
    (widthOf heightOf : Int → String → Nat) (img : α) (size : Nat)
    (quotes : List Quote) (m : Mult) :
    ((add_text_overlay drawText widthOf heightOf img size quotes m).2).Perm
      quotes ∧
    List.Pairwise (fun a b => b.importance ≤ a.importance)
      (add_text_overlay drawText widthOf heightOf img size quotes m).2 := by
  constructor
  · exact List.perm_insertionSort quoteGE quotes
  · exact List.sorted_insertionSort quoteGE quotes

set_option maxRecDepth 40000 in
/-- C7: with empty quote and emoji lists the pipeline returns exactly the
gradient background of the requested square size — no glyph pasted, no
text drawn — for every palette, fetch behavior, shuffle and coordinate
draw; the embedded pipeline is a total function, so no exception reaches
the caller. -/
theorem C7_degenerate_pipeline (paste : List RGB → EmojiImage → Nat × Nat → List RGB)
    (drawText : List RGB → Int × Int → String → Int → TextColor → List RGB)
    (shuffle : List (List Char) → List (List Char)) (rngXY : Nat → Nat × Nat)
    (fetchPng : Nat → FetchOutcome) (widthOf heightOf : Int → String → Nat)
    (palette : RGB × RGB) (m : Mult)
    (hshuffle : ∀ l, List.Perm (shuffle l) l) :
    create_thumbnail paste drawText shuffle rngXY fetchPng widthOf heightOf
      palette [] [] m = create_gradient_background palette 1024 := by
  have hnil : shuffle [] = [] := (hshuffle []).eq_nil
  have h1 : create_emoji_background paste shuffle rngXY fetchPng
      (create_gradient_background palette 1024) 1024 []
      = create_gradient_background palette 1024 := by
    unfold create_emoji_background
    rw [show emojiPositions [] = [] from rfl, hnil]
    rfl
  show (add_text_overlay drawText widthOf heightOf
      (create_emoji_background paste shuffle rngXY fetchPng
        (create_gradient_background palette 1024) 1024 []) 1024 [] m).1
    = create_gradient_background palette 1024
  rw [h1]
  rfl

/-- C7 witness: a concrete instantiation of the degenerate scenario. -/
theorem C7_degenerate_pipeline_witness :
    create_thumbnail (fun c _ _ => c) (fun c _ _ _ _ => c) id (fun _ => (0, 0))
      (fun _ => FetchOutcome.fail) zeroWidth height10
      (⟨240, 248, 255⟩, ⟨176, 196, 222⟩) [] [] mult1
      = create_gradient_background (⟨240, 248, 255⟩, ⟨176, 196, 222⟩) 1024 :=
  C7_degenerate_pipeline (fun c _ _ => c) (fun c _ _ _ _ => c) id
    (fun _ => (0, 0)) (fun _ => FetchOutcome.fail) zeroWidth height10
    (⟨240, 248, 255⟩, ⟨176, 196, 222⟩) mult1 (fun l => List.Perm.refl l)
